import Mathlib

/-!
Shallow embedding of `gibbs_it.py`: a value object computing the Gibbs free
energy change for ion transport across a membrane, with validated
construction, a unit-converting factory, comparison and addition operators,
and a textual rendering.

Python floats are idealised as exact rationals (every IEEE-754 double is a
rational number); the transcendental `math.log` is idealised as `Real.log`,
so the energy computation lives in `ℝ` while construction, validation and
parsing stay computable over `ℚ`.
-/

/-- Embedding of the `GibbsIT` class state: the six fields set by
`__init__` (lines 78-84 of `gibbs_it.py`). -/
structure GibbsIT where
  name : String
  ion : String
  c1 : ℚ
  c2 : ℚ
  z : ℤ
  Vm : ℚ
  T : ℚ

/-- Class constant `R = 8.314e-3` (gas constant, kJ/mol K), line 52. -/
def GibbsIT.R : ℚ := 8.314e-3

/-- Class constant `F = 96.5` (Faraday constant, kJ/V mol), line 53. -/
def GibbsIT.F : ℚ := 96.5

/-- Embedding of `GibbsIT._validate` (lines 87-100): the three range checks,
in source order, each raising `ValueError` with its message. -/
def GibbsIT.validate (g : GibbsIT) : Except String Unit :=
  if g.c1 ≤ 0 ∨ g.c2 ≤ 0 then
    .error ("Concentrations must be > 0 (M).")
  else if ¬ (-0.3 ≤ g.Vm ∧ g.Vm ≤ 0.3) then
    .error ("Vm seems not in volts (expected pm 0.3 V range).")
  else if g.T ≤ 0 then
    .error ("Temperature must be in Kelvin (> 0).")
  else
    .ok ()

/-- Embedding of `GibbsIT.__init__` (lines 55-85): store the fields, then run
`_validate`; an exception aborts construction, so the caller receives either
a fully valid record or the error. -/
def GibbsIT.init (name ion : String) (c_origin_M c_dest_M : ℚ) (z : ℤ)
    (Vm : ℚ) (T_K : ℚ) : Except String GibbsIT :=
  let g : GibbsIT := ⟨name, ion, c_origin_M, c_dest_M, z, Vm, T_K⟩
  match g.validate with
  | .ok _ => .ok g
  | .error e => .error e

/-- Whitespace characters removed by Python `str.strip` and by `float`. -/
def isSpaceChar (c : Char) : Bool :=
  c == ' ' || c == '\t' || c == '\n' || c == '\r' || c == '\x0b' || c == '\x0c'

/-- Model of the host builtin `str.strip()`: drop leading and trailing
whitespace. -/
def stripList (cs : List Char) : List Char :=
  ((cs.dropWhile isSpaceChar).reverse.dropWhile isSpaceChar).reverse

/-- ASCII uppercase conversion of one character. -/
def upperChar (c : Char) : Char :=
  if 97 ≤ c.toNat ∧ c.toNat ≤ 122 then Char.ofNat (c.toNat - 32) else c

/-- Model of the host builtin `str.upper()` on the ASCII range used here. -/
def upperList (cs : List Char) : List Char :=
  cs.map upperChar

/-- Numeric value of a digit list (most significant first). -/
def digitsVal (cs : List Char) : ℕ :=
  cs.foldl (fun a c => 10 * a + (c.toNat - 48)) 0

/-- Exponent suffix of a float literal: optional sign then digits.
Helper for `parseFloat`. -/
def parseExpPart (mant : ℚ) (r : List Char) : Option ℚ :=
  let (esgn, ds) :=
    match r with
    | '-' :: rest => ((-1 : ℤ), rest)
    | '+' :: rest => ((1 : ℤ), rest)
    | rest => ((1 : ℤ), rest)
  if ds.isEmpty || !(ds.all Char.isDigit) then none
  else some (mant * (10 : ℚ) ^ (esgn * (digitsVal ds : ℤ)))

/-- Model of the host builtin `float(str)` used at lines 133, 135 and 139:
optional surrounding whitespace, optional sign, decimal digits with optional
fractional part, optional exponent; anything else fails (`ValueError`). -/
def parseFloat (s : String) : Option ℚ :=
  let t := stripList s.data
  let (sgn, cs) :=
    match t with
    | '-' :: rest => ((-1 : ℚ), rest)
    | '+' :: rest => ((1 : ℚ), rest)
    | cs => ((1 : ℚ), cs)
  let intPart := cs.takeWhile Char.isDigit
  let rest1 := cs.dropWhile Char.isDigit
  let (fracPart, rest2) :=
    match rest1 with
    | '.' :: r => (r.takeWhile Char.isDigit, r.dropWhile Char.isDigit)
    | _ => (([] : List Char), rest1)
  if intPart.isEmpty && fracPart.isEmpty then none
  else
    let mant : ℚ :=
      sgn * ((digitsVal intPart : ℚ) + (digitsVal fracPart : ℚ) / 10 ^ fracPart.length)
    match rest2 with
    | [] => some mant
    | 'e' :: r => parseExpPart mant r
    | 'E' :: r => parseExpPart mant r
    | _ => none

/-- Embedding of the temperature-string branch of `GibbsIT.from_mM_mV`
(lines 130-137): strip, uppercase, dispatch on the `C`/`K` suffix, parse the
numeric portion with `float`, convert Celsius by adding `273.15`. -/
def parseTemp (T : String) : Except String ℚ :=
  let t := upperList (stripList T.data)
  if t.getLast? == some 'C' then
    match parseFloat (String.mk t.dropLast) with
    | some x => .ok (x + 273.15)
    | none => .error ("could not convert string to float")
  else if t.getLast? == some 'K' then
    match parseFloat (String.mk t.dropLast) with
    | some x => .ok x
    | none => .error ("could not convert string to float")
  else
    .error ("Temperature must end with C or K")

/-- The `Union[float, str]` temperature argument of `from_mM_mV`. -/
inductive PyTemp where
  | num (x : ℚ)
  | str (s : String)

/-- Embedding of the classmethod `GibbsIT.from_mM_mV` (lines 102-149):
resolve the temperature, divide the concentrations and the membrane potential
by 1000, and delegate to `__init__`. -/
def GibbsIT.from_mM_mV (name ion : String) (c_origin_mM c_dest_mM : ℚ)
    (z : ℤ) (vm_mV : ℚ) (T : PyTemp) : Except String GibbsIT :=
  match (match T with
         | .str s => parseTemp s
         | .num x => .ok x) with
  | .error e => .error e
  | .ok T_K =>
      GibbsIT.init name ion (c_origin_mM / 1000) (c_dest_mM / 1000) z
        (vm_mV / 1000) T_K

/-- Embedding of `GibbsIT.calculate_delta_G` (lines 222-231):
`R * T * log (c2 / c1) + z * F * Vm`, in `ℝ` with `math.log = Real.log`. -/
noncomputable def GibbsIT.calculate_delta_G (g : GibbsIT) : ℝ :=
  (GibbsIT.R : ℝ) * (g.T : ℝ) * Real.log ((g.c2 : ℝ) / (g.c1 : ℝ)) +
    (g.z : ℝ) * (GibbsIT.F : ℝ) * (g.Vm : ℝ)

/-- Model of the host builtin `math.isclose` used at line 173:
`|a - b| ≤ max (rel_tol * max |a| |b|) abs_tol` (finite arguments). -/
def isclose (a b rel_tol abs_tol : ℝ) : Prop :=
  |a - b| ≤ max (rel_tol * max |a| |b|) abs_tol

/-- Values a Python expression may place on the other side of an operator:
another record, a plain number (`int`/`float`), or some foreign object. -/
inductive PyVal where
  | record (g : GibbsIT)
  | number (x : ℚ)
  | foreign (tag : String)

/-- Embedding of `GibbsIT.__eq__` (lines 161-178): `NotImplemented` (here
`none`) for a non-record operand, otherwise `math.isclose` on the two
energies with `rel_tol = abs_tol = 1e-9`. -/
noncomputable def GibbsIT.eqMeth (g : GibbsIT) (v : PyVal) : Option Prop :=
  match v with
  | .record h => some (isclose g.calculate_delta_G h.calculate_delta_G 1e-9 1e-9)
  | _ => none

/-- Embedding of `GibbsIT.__lt__` (lines 180-192): `NotImplemented` for a
non-record operand, otherwise strict comparison of the two energies. -/
noncomputable def GibbsIT.ltMeth (g : GibbsIT) (v : PyVal) : Option Prop :=
  match v with
  | .record h => some (g.calculate_delta_G < h.calculate_delta_G)
  | _ => none

/-- Embedding of `GibbsIT.__add__` (lines 194-206): `NotImplemented` for a
non-record operand, otherwise the sum of the two energies. -/
noncomputable def GibbsIT.addMeth (g : GibbsIT) (v : PyVal) : Option ℝ :=
  match v with
  | .record h => some (g.calculate_delta_G + h.calculate_delta_G)
  | _ => none

/-- Embedding of `GibbsIT.__radd__` (lines 208-220): accepts an `int` or
`float` operand and returns `other + ΔG`; `NotImplemented` otherwise. -/
noncomputable def GibbsIT.raddMeth (g : GibbsIT) (v : PyVal) : Option ℝ :=
  match v with
  | .number x => some ((x : ℝ) + g.calculate_delta_G)
  | _ => none

/-- Python dispatch of the binary `+` operator over the cases involving at
least one record: `a + b` first tries `type(a).__add__`, then the reflected
`type(b).__radd__`; if both return `NotImplemented` the operation raises
`TypeError` (here `none`). `float.__add__`/`float.__radd__` handle only
numbers, and a foreign object is assumed to implement neither side. -/
noncomputable def pyAddOp (a b : PyVal) : Option ℝ :=
  match a, b with
  | .record g, .record h => g.addMeth (.record h)
  | .record _, .number _ => none
  | .record _, .foreign _ => none
  | .number x, .record h => h.raddMeth (.number x)
  | .foreign _, .record h => h.raddMeth (.foreign (""))
  | .number x, .number y => some ((x : ℝ) + (y : ℝ))
  | _, _ => none

/-- Two-digit zero-padded rendering of a number below 100. -/
def pad2 (n : ℕ) : String :=
  if n < 10 then "0" ++ toString n else toString n

/-- Rendering of an integer number of hundredths as a signed decimal with
exactly two places after the point, as `%.2f` prints the rounded value. -/
def renderCenti (n : ℤ) : String :=
  (if n < 0 then "-" else "") ++ toString (n.natAbs / 100) ++ "." ++ pad2 (n.natAbs % 100)

/-- Model of the host format spec `.2f` at line 159: round the value to the
nearest hundredth and print it with two decimal places. A representable tie
never occurs for the values considered here, so the tie-breaking rule is
immaterial. -/
noncomputable def fmt2 (r : ℝ) : String :=
  renderCenti (round ((100 : ℝ) * r))

/-- Embedding of `GibbsIT.__repr__` (lines 151-159). -/
noncomputable def GibbsIT.reprStr (g : GibbsIT) : String :=
  "Gibbs Ion Transport (" ++ g.name ++ ": " ++ g.ion ++ ", ∆G = " ++
    fmt2 g.calculate_delta_G ++ " kJ/mol)"

/-- Exactly one of three propositions holds. -/
def ExactlyOne (p q r : Prop) : Prop :=
  (p ∧ ¬ q ∧ ¬ r) ∨ (¬ p ∧ q ∧ ¬ r) ∨ (¬ p ∧ ¬ q ∧ r)

/-! Helper records and evaluation lemmas. -/

/-- A valid record with equal concentrations and zero membrane potential,
whose energy is exactly `0`. -/
def unitRecord : GibbsIT := ⟨"r", "X+", 1, 1, 1, 0, 310⟩

/-- A valid record identical to `unitRecord` except for a membrane potential
of `1e-12` V, whose energy `9.65e-11` is below the equality tolerance. -/
def tinyVmRecord : GibbsIT := ⟨"r", "X+", 1, 1, 1, 1e-12, 310⟩

/-- A valid record identical to `unitRecord` except for a membrane potential
of `0.14` V, whose energy `13.51` is far above the equality tolerance. -/
def bigVmRecord : GibbsIT := ⟨"r", "X+", 1, 1, 1, 0.14, 310⟩

/-- The record produced by the spec's concrete scenario 2 inputs. -/
def naRecord : GibbsIT := ⟨"Na influx", "Na+", 145 / 1000, 15 / 1000, 1, -70 / 1000, 310.15⟩

/-- The record produced by the spec's concrete scenario 1 inputs. -/
def caRecord : GibbsIT := ⟨"Ca influx", "Ca2+", 1.8 / 1000, 0.0001 / 1000, 2, -70 / 1000, 310⟩

lemma unitRecord_dg : unitRecord.calculate_delta_G = 0 := by
  simp [GibbsIT.calculate_delta_G, unitRecord]

lemma tinyVmRecord_dg : tinyVmRecord.calculate_delta_G = 9.65e-11 := by
  simp [GibbsIT.calculate_delta_G, tinyVmRecord, GibbsIT.F, GibbsIT.R]
  norm_num

lemma bigVmRecord_dg : bigVmRecord.calculate_delta_G = 13.51 := by
  simp [GibbsIT.calculate_delta_G, bigVmRecord, GibbsIT.F, GibbsIT.R]
  norm_num

lemma validate_error_iff (g : GibbsIT) :
    (∃ e, g.validate = .error e) ↔
      (g.c1 ≤ 0 ∨ g.c2 ≤ 0 ∨ g.Vm < -0.3 ∨ 0.3 < g.Vm ∨ g.T ≤ 0) := by
  unfold GibbsIT.validate
  by_cases h1 : g.c1 ≤ 0 ∨ g.c2 ≤ 0
  · simp only [if_pos h1]
    exact iff_of_true ⟨_, rfl⟩ (by tauto)
  · by_cases h2 : ¬ (-0.3 ≤ g.Vm ∧ g.Vm ≤ 0.3)
    · simp only [if_neg h1, if_pos h2]
      refine iff_of_true ⟨_, rfl⟩ ?_
      rcases not_and_or.mp h2 with h | h
      · exact Or.inr (Or.inr (Or.inl (not_le.mp h)))
      · exact Or.inr (Or.inr (Or.inr (Or.inl (not_le.mp h))))
    · by_cases h3 : g.T ≤ 0
      · simp only [if_neg h1, if_neg h2, if_pos h3]
        exact iff_of_true ⟨_, rfl⟩ (by tauto)
      · simp only [if_neg h1, if_neg h2, if_neg h3]
        push_neg at h1 h2 h3
        constructor
        · rintro ⟨e, he⟩
          exact Except.noConfusion he
        · rintro (h | h | h | h | h) <;> linarith [h1.1, h1.2, h2.1, h2.2]

lemma init_error_iff (name ion : String) (c1 c2 : ℚ) (z : ℤ) (Vm T : ℚ) :
    (∃ e, GibbsIT.init name ion c1 c2 z Vm T = .error e) ↔
      (c1 ≤ 0 ∨ c2 ≤ 0 ∨ Vm < -0.3 ∨ 0.3 < Vm ∨ T ≤ 0) := by
  simp only [GibbsIT.init]
  cases hv : (GibbsIT.mk name ion c1 c2 z Vm T).validate with
  | ok u =>
      constructor
      · rintro ⟨e, he⟩
        exact Except.noConfusion he
      · intro hcond
        rcases (validate_error_iff (GibbsIT.mk name ion c1 c2 z Vm T)).mpr
          (by simpa using hcond) with ⟨e, he⟩
        rw [hv] at he
        exact Except.noConfusion he
  | error e =>
      refine iff_of_true ⟨e, rfl⟩ ?_
      simpa using (validate_error_iff (GibbsIT.mk name ion c1 c2 z Vm T)).mp ⟨e, hv⟩

lemma init_ok_fields (name ion : String) (c1 c2 : ℚ) (z : ℤ) (Vm T : ℚ) :
    ∀ g, GibbsIT.init name ion c1 c2 z Vm T = .ok g →
      g = ⟨name, ion, c1, c2, z, Vm, T⟩ := by
  simp only [GibbsIT.init]
  intro g hg
  cases hv : (GibbsIT.mk name ion c1 c2 z Vm T).validate with
  | ok u =>
      rw [hv] at hg
      injection hg with hg
      exact hg.symm
  | error e =>
      rw [hv] at hg
      exact Except.noConfusion hg

lemma parseTemp_37C : parseTemp ("37C") = .ok 310.15 := by
  have h : parseTemp ("37C") =
      .ok ((1 : ℚ) * (((37 : ℕ) : ℚ) + ((0 : ℕ) : ℚ) / 10 ^ (0 : ℕ)) + 273.15) := rfl
  rw [h]
  norm_num

lemma parseTemp_310K : parseTemp ("310K") = .ok 310 := by
  have h : parseTemp ("310K") =
      .ok ((1 : ℚ) * (((310 : ℕ) : ℚ) + ((0 : ℕ) : ℚ) / 10 ^ (0 : ℕ))) := rfl
  rw [h]
  norm_num

lemma from_mM_mV_na :
    GibbsIT.from_mM_mV ("Na influx") ("Na+") 145 15 1 (-70) (.str ("37C")) = .ok naRecord := by
  simp only [GibbsIT.from_mM_mV, parseTemp_37C]
  simp only [GibbsIT.init, GibbsIT.validate]
  norm_num [naRecord]

lemma from_mM_mV_ca :
    GibbsIT.from_mM_mV ("Ca influx") ("Ca2+") 1.8 0.0001 2 (-70) (.num 310) = .ok caRecord := by
  simp only [GibbsIT.from_mM_mV]
  simp only [GibbsIT.init, GibbsIT.validate]
  norm_num [caRecord]

lemma naRecord_dg :
    naRecord.calculate_delta_G = 2.5785871 * Real.log ((3 : ℝ) / 29) - 6.755 := by
  rw [GibbsIT.calculate_delta_G]
  have hr : ((naRecord.c2 : ℚ) : ℝ) / ((naRecord.c1 : ℚ) : ℝ) = (3 : ℝ) / 29 := by
    norm_num [naRecord]
  rw [hr]
  norm_num [naRecord, GibbsIT.R, GibbsIT.F]
  ring

lemma caRecord_dg :
    caRecord.calculate_delta_G = -(2.57734 * Real.log 18000) - 13.51 := by
  rw [GibbsIT.calculate_delta_G]
  have hr : ((caRecord.c2 : ℚ) : ℝ) / ((caRecord.c1 : ℚ) : ℝ) = (18000 : ℝ)⁻¹ := by
    norm_num [caRecord]
  rw [hr, Real.log_inv]
  norm_num [caRecord, GibbsIT.R, GibbsIT.F]
  ring

lemma log_ratio_1125_1024 :
    (0.0940656 : ℝ) ≤ Real.log (1125 / 1024) ∧ Real.log (1125 / 1024) ≤ (0.0940677 : ℝ) := by
  have hx : |(-(101 : ℝ) / 1024)| < 1 := by rw [abs_div]; norm_num
  have hs := Real.abs_log_sub_add_sum_range_le hx 5
  rw [abs_le] at hs
  have h1 : (1 : ℝ) - (-(101 : ℝ) / 1024) = 1125 / 1024 := by norm_num
  rw [h1] at hs
  have h2 : |(-(101 : ℝ) / 1024)| = 101 / 1024 := by rw [abs_div]; norm_num
  rw [h2] at hs
  simp only [Finset.sum_range_succ, Finset.sum_range_zero] at hs
  norm_num at hs
  constructor <;> linarith [hs.1, hs.2]

lemma log_18000_bounds :
    (9.7981 : ℝ) ≤ Real.log 18000 ∧ Real.log 18000 ≤ (9.7982 : ℝ) := by
  have h18 : (18000 : ℝ) = 2 ^ 14 * (1125 / 1024) := by norm_num
  have hlog : Real.log 18000 = 14 * Real.log 2 + Real.log (1125 / 1024) := by
    rw [h18, Real.log_mul (by positivity) (by norm_num), Real.log_pow]
    norm_num
  have hu := log_ratio_1125_1024
  have h2l := Real.log_two_gt_d9
  have h2u := Real.log_two_lt_d9
  rw [hlog]
  constructor <;> nlinarith [hu.1, hu.2]

lemma log_ratio_29_24 :
    (0.1892415 : ℝ) ≤ Real.log (29 / 24) ∧ Real.log (29 / 24) ≤ (0.1892425 : ℝ) := by
  have hx : |(-(5 : ℝ) / 24)| < 1 := by rw [abs_div]; norm_num
  have hs := Real.abs_log_sub_add_sum_range_le hx 9
  rw [abs_le] at hs
  have h1 : (1 : ℝ) - (-(5 : ℝ) / 24) = 29 / 24 := by norm_num
  rw [h1] at hs
  have h2 : |(-(5 : ℝ) / 24)| = 5 / 24 := by rw [abs_div]; norm_num
  rw [h2] at hs
  simp only [Finset.sum_range_succ, Finset.sum_range_zero] at hs
  norm_num at hs
  constructor <;> linarith [hs.1, hs.2]

lemma log_329_bounds :
    (-2.2686841 : ℝ) ≤ Real.log ((3 : ℝ) / 29) ∧ Real.log ((3 : ℝ) / 29) ≤ (-2.2686830 : ℝ) := by
  have h1 : ((3 : ℝ) / 29) = ((29 : ℝ) / 3)⁻¹ := by norm_num
  have h2 : ((29 : ℝ) / 3) = 2 ^ 3 * (29 / 24) := by norm_num
  have hlog : Real.log ((3 : ℝ) / 29) = -(3 * Real.log 2 + Real.log (29 / 24)) := by
    rw [h1, Real.log_inv, h2, Real.log_mul (by positivity) (by norm_num), Real.log_pow]
    norm_num
  have hu := log_ratio_29_24
  have h2l := Real.log_two_gt_d9
  have h2u := Real.log_two_lt_d9
  rw [hlog]
  constructor <;> linarith [hu.1, hu.2]

lemma naRecord_round : round ((100 : ℝ) * naRecord.calculate_delta_G) = -1260 := by
  have hdg := naRecord_dg
  have hlog := log_329_bounds
  rw [round_eq, Int.floor_eq_iff]
  rw [hdg]
  push_cast
  constructor <;> nlinarith [hlog.1, hlog.2]

lemma naRecord_repr :
    naRecord.reprStr = "Gibbs Ion Transport (Na influx: Na+, ∆G = -12.60 kJ/mol)" := by
  rw [GibbsIT.reprStr, fmt2, naRecord_round]
  rfl

lemma caRecord_bound : |caRecord.calculate_delta_G - (-38.76)| ≤ 0.01 := by
  rw [caRecord_dg, abs_le]
  have hlog := log_18000_bounds
  constructor <;> nlinarith [hlog.1, hlog.2]

/-! Claim theorems. -/

/-- Claim C1: for every validly constructed record, `calculate_delta_G`
returns `R * T * ln (c2 / c1) + z * F * Vm` with `R = 8.314e-3` and
`F = 96.5`; in particular the scenario-1 record built by the convenience
constructor (`c_origin_mM = 1.8`, `c_dest_mM = 0.0001`, `z = 2`,
`vm_mV = -70`, `T = 310`) has an energy within `0.01` of `-38.76` kJ/mol. -/
theorem delta_G_formula_and_scenario1 :
    (∀ g : GibbsIT, g.validate = .ok () →
      g.calculate_delta_G =
        (8.314e-3 : ℝ) * (g.T : ℝ) * Real.log ((g.c2 : ℝ) / (g.c1 : ℝ)) +
          (g.z : ℝ) * (96.5 : ℝ) * (g.Vm : ℝ)) ∧
    (∃ g, GibbsIT.from_mM_mV ("Ca influx") ("Ca2+") 1.8 0.0001 2 (-70) (.num 310) = .ok g ∧
      |g.calculate_delta_G - (-38.76)| ≤ 0.01) := by
  constructor
  · intro g _
    norm_num [GibbsIT.calculate_delta_G, GibbsIT.R, GibbsIT.F]
  · exact ⟨caRecord, from_mM_mV_ca, caRecord_bound⟩

/-- Witness for C1: the scenario-1 record is valid and the formula holds on
it. -/
theorem delta_G_formula_and_scenario1_witness :
    caRecord.validate = .ok () ∧
    caRecord.calculate_delta_G =
      (8.314e-3 : ℝ) * (caRecord.T : ℝ) * Real.log ((caRecord.c2 : ℝ) / (caRecord.c1 : ℝ)) +
        (caRecord.z : ℝ) * (96.5 : ℝ) * (caRecord.Vm : ℝ) := by
  have hv : caRecord.validate = .ok () := by norm_num [GibbsIT.validate, caRecord]
  exact ⟨hv, delta_G_formula_and_scenario1.1 caRecord hv⟩

/-- Claim C2: the primary constructor fails with an error exactly when a
concentration is `≤ 0`, the membrane potential is outside `[-0.3, 0.3]`, or
the temperature is `≤ 0`; on success the record stores the fields exactly as
given, and construction is atomic. Concentration `0` or `-1`, membrane
potential `0.5` and temperature `-1` are each rejected. -/
theorem construction_validation :
    (∀ (name ion : String) (c1 c2 : ℚ) (z : ℤ) (Vm T : ℚ),
      ((∃ e, GibbsIT.init name ion c1 c2 z Vm T = .error e) ↔
        (c1 ≤ 0 ∨ c2 ≤ 0 ∨ Vm < -0.3 ∨ 0.3 < Vm ∨ T ≤ 0)) ∧
      (∀ g, GibbsIT.init name ion c1 c2 z Vm T = .ok g →
        g = ⟨name, ion, c1, c2, z, Vm, T⟩)) ∧
    (∃ e, GibbsIT.init ("x") ("i") 0 1 1 0 310 = .error e) ∧
    (∃ e, GibbsIT.init ("x") ("i") 1 (-1) 1 0 310 = .error e) ∧
    (∃ e, GibbsIT.init ("x") ("i") 1 1 1 0.5 310 = .error e) ∧
    (∃ e, GibbsIT.init ("x") ("i") 1 1 1 0 (-1) = .error e) := by
  refine ⟨fun name ion c1 c2 z Vm T =>
      ⟨init_error_iff name ion c1 c2 z Vm T, init_ok_fields name ion c1 c2 z Vm T⟩,
    (init_error_iff ("x") ("i") 0 1 1 0 310).mpr (by norm_num),
    (init_error_iff ("x") ("i") 1 (-1) 1 0 310).mpr (by norm_num),
    (init_error_iff ("x") ("i") 1 1 1 0.5 310).mpr (by norm_num),
    (init_error_iff ("x") ("i") 1 1 1 0 (-1)).mpr (by norm_num)⟩

/-- Witness for C2: a concrete in-range construction succeeds and, by the
theorem, stores exactly the given fields. -/
theorem construction_validation_witness :
    GibbsIT.init ("w") ("W+") 2 3 1 0 310 = .ok ⟨"w", "W+", 2, 3, 1, 0, 310⟩ := by
  have hex : ∃ g, GibbsIT.init ("w") ("W+") 2 3 1 0 310 = .ok g := by
    cases hi : GibbsIT.init ("w") ("W+") 2 3 1 0 310 with
    | ok g => exact ⟨g, rfl⟩
    | error e =>
        have hc := (construction_validation.1 ("w") ("W+") 2 3 1 0 310).1.mp ⟨e, hi⟩
        norm_num at hc
  rcases hex with ⟨g, hg⟩
  rw [hg, (construction_validation.1 ("w") ("W+") 2 3 1 0 310).2 g hg]

/-- Claim C3 counterexample: two valid records whose energies are `0` and
`9.65e-11` satisfy both `a < b` and `a == b`, so it is not the case that
exactly one of `a < b`, `a == b`, `b < a` holds. -/
theorem ordering_trichotomy_cex :
    unitRecord.validate = .ok () ∧ tinyVmRecord.validate = .ok () ∧
    ¬ ExactlyOne (unitRecord.calculate_delta_G < tinyVmRecord.calculate_delta_G)
      (isclose unitRecord.calculate_delta_G tinyVmRecord.calculate_delta_G 1e-9 1e-9)
      (tinyVmRecord.calculate_delta_G < unitRecord.calculate_delta_G) := by
  refine ⟨by norm_num [GibbsIT.validate, unitRecord],
    by norm_num [GibbsIT.validate, tinyVmRecord], ?_⟩
  have h0 := unitRecord_dg
  have h1 := tinyVmRecord_dg
  have hlt : unitRecord.calculate_delta_G < tinyVmRecord.calculate_delta_G := by
    rw [h0, h1]; norm_num
  have heq : isclose unitRecord.calculate_delta_G tinyVmRecord.calculate_delta_G 1e-9 1e-9 := by
    simp only [isclose, h0, h1]
    have habs : |(0 : ℝ) - 9.65e-11| = 9.65e-11 := by norm_num
    rw [habs]
    exact le_max_of_le_right (by norm_num)
  rintro (⟨_, hq, _⟩ | ⟨hp, _, _⟩ | ⟨hp, _, _⟩)
  · exact hq heq
  · exact hp hlt
  · exact hp hlt

/-- Claim C3 (amended): for every pair of records at least one of `a < b`,
`a == b`, `b < a` holds, and whenever `a == b` fails exactly one of the three
holds; exclusivity can fail only when the energies differ by no more than the
`isclose` tolerance. -/
theorem ordering_semantics :
    ∀ a b : GibbsIT,
      (a.calculate_delta_G < b.calculate_delta_G ∨
        isclose a.calculate_delta_G b.calculate_delta_G 1e-9 1e-9 ∨
        b.calculate_delta_G < a.calculate_delta_G) ∧
      (¬ isclose a.calculate_delta_G b.calculate_delta_G 1e-9 1e-9 →
        ExactlyOne (a.calculate_delta_G < b.calculate_delta_G)
          (isclose a.calculate_delta_G b.calculate_delta_G 1e-9 1e-9)
          (b.calculate_delta_G < a.calculate_delta_G)) := by
  intro a b
  constructor
  · rcases lt_trichotomy a.calculate_delta_G b.calculate_delta_G with h | h | h
    · exact Or.inl h
    · refine Or.inr (Or.inl ?_)
      simp only [isclose, h, sub_self, abs_zero]
      exact le_max_of_le_right (by norm_num)
    · exact Or.inr (Or.inr h)
  · intro hne
    rcases lt_trichotomy a.calculate_delta_G b.calculate_delta_G with h | h | h
    · exact Or.inl ⟨h, hne, lt_asymm h⟩
    · refine absurd ?_ hne
      simp only [isclose, h, sub_self, abs_zero]
      exact le_max_of_le_right (by norm_num)
    · exact Or.inr (Or.inr ⟨lt_asymm h, hne, h⟩)

/-- Witness for the amended C3: records with energies `0` and `13.51` are not
`isclose`, and exactly one comparison holds. -/
theorem ordering_semantics_witness :
    ¬ isclose unitRecord.calculate_delta_G bigVmRecord.calculate_delta_G 1e-9 1e-9 ∧
    ExactlyOne (unitRecord.calculate_delta_G < bigVmRecord.calculate_delta_G)
      (isclose unitRecord.calculate_delta_G bigVmRecord.calculate_delta_G 1e-9 1e-9)
      (bigVmRecord.calculate_delta_G < unitRecord.calculate_delta_G) := by
  have h0 := unitRecord_dg
  have h1 := bigVmRecord_dg
  have hne : ¬ isclose unitRecord.calculate_delta_G bigVmRecord.calculate_delta_G 1e-9 1e-9 := by
    simp only [isclose, h0, h1]
    intro hcon
    have habs1 : |(0 : ℝ) - 13.51| = 13.51 := by norm_num
    have habs2 : |(0 : ℝ)| = 0 := abs_zero
    have habs3 : |(13.51 : ℝ)| = 13.51 := by norm_num
    rw [habs1, habs2, habs3, max_eq_right (by norm_num : (0 : ℝ) ≤ 13.51),
      max_eq_left (by norm_num : (1e-9 : ℝ) ≤ 1e-9 * 13.51)] at hcon
    norm_num at hcon
  exact ⟨hne, (ordering_semantics unitRecord bigVmRecord).2 hne⟩

/-- Claim C4 (amended): adding two records yields the sum of their energies,
and a plain number adds on the left (`x + r` via `__radd__`); with the number
on the right (`r + x`) both `__add__` and `float.__radd__` return
`NotImplemented`, so the operation raises `TypeError` instead of succeeding. -/
theorem addition_semantics :
    ∀ (g h : GibbsIT) (x : ℚ),
      pyAddOp (.record g) (.record h) = some (g.calculate_delta_G + h.calculate_delta_G) ∧
      pyAddOp (.number x) (.record g) = some ((x : ℝ) + g.calculate_delta_G) ∧
      pyAddOp (.record g) (.number x) = none :=
  fun g h x => ⟨rfl, rfl, rfl⟩

/-- Claim C4 counterexample: for a concrete valid record `r`, the operation
`r + 1` does not succeed with any value, contradicting the claim that
`r + x` succeeds and equals `ΔG(r) + x`. -/
theorem addition_record_number_cex :
    unitRecord.validate = .ok () ∧
    pyAddOp (.record unitRecord) (.number 1) = none ∧
    ¬ ∃ y : ℝ, pyAddOp (.record unitRecord) (.number 1) = some y := by
  refine ⟨by norm_num [GibbsIT.validate, unitRecord], rfl, ?_⟩
  rintro ⟨y, hy⟩
  exact Option.noConfusion hy

/-- Claim C5: two records compare equal exactly when their energies satisfy
`|dgA - dgB| ≤ max (1e-9 * max |dgA| |dgB|) 1e-9`; equality is decided by the
computed energies only, never field-wise. -/
theorem equality_isclose :
    ∀ g h : GibbsIT,
      g.eqMeth (.record h) =
        some (|g.calculate_delta_G - h.calculate_delta_G| ≤
          max ((1e-9 : ℝ) * max |g.calculate_delta_G| |h.calculate_delta_G|) (1e-9 : ℝ)) :=
  fun g h => rfl

/-- Claim C6: the convenience constructor divides millimolar and millivolt
inputs by 1000, maps `"37C"` to `310.15` K and `"310K"` to `310` K, and
delegates to the primary constructor; in particular for all `X`, `Y`, `Z`
the `"37C"` round-trip equation of the spec holds. -/
theorem convenience_roundtrip :
    (∀ (name ion : String) (X Y : ℚ) (z : ℤ) (Z : ℚ),
      GibbsIT.from_mM_mV name ion X Y z Z (.str ("37C")) =
        GibbsIT.init name ion (X / 1000) (Y / 1000) z (Z / 1000) 310.15) ∧
    (∀ (name ion : String) (X Y : ℚ) (z : ℤ) (Z T : ℚ),
      GibbsIT.from_mM_mV name ion X Y z Z (.num T) =
        GibbsIT.init name ion (X / 1000) (Y / 1000) z (Z / 1000) T) ∧
    parseTemp ("37C") = .ok 310.15 ∧ parseTemp ("310K") = .ok 310 := by
  refine ⟨fun name ion X Y z Z => ?_, fun name ion X Y z Z T => rfl, parseTemp_37C,
    parseTemp_310K⟩
  simp only [GibbsIT.from_mM_mV, parseTemp_37C]

/-- Claim C7: the temperature string is stripped, uppercased, and accepted
exactly when it ends in `C` or `K` and the remaining portion parses as a
float; `"abc"` and `"37"` are rejected while `" 37c "` and `"310K"` are
accepted. -/
theorem temperature_grammar :
    (∀ s : String,
      (∃ e, parseTemp s = .error e) ↔
        (((upperList (stripList s.data)).getLast? ≠ some 'C' ∧
          (upperList (stripList s.data)).getLast? ≠ some 'K') ∨
         parseFloat (String.mk (upperList (stripList s.data)).dropLast) = none)) ∧
    (∃ e, parseTemp ("abc") = .error e) ∧
    (∃ e, parseTemp ("37") = .error e) ∧
    (∃ q, parseTemp (" 37c ") = .ok q) ∧
    (∃ q, parseTemp ("310K") = .ok q) := by
  refine ⟨fun s => ?_, ⟨_, rfl⟩, ⟨_, rfl⟩, ⟨_, rfl⟩, ⟨_, rfl⟩⟩
  simp only [parseTemp]
  by_cases hC : (upperList (stripList s.data)).getLast? = some 'C'
  · rw [if_pos (by simp [hC])]
    cases hpf : parseFloat (String.mk (upperList (stripList s.data)).dropLast) with
    | some q => simp [hpf, hC]
    | none => simp [hpf]
  · by_cases hK : (upperList (stripList s.data)).getLast? = some 'K'
    · rw [if_neg (by simp [hC]), if_pos (by simp [hK])]
      cases hpf : parseFloat (String.mk (upperList (stripList s.data)).dropLast) with
      | some q => simp [hpf, hC, hK]
      | none => simp [hpf]
    · rw [if_neg (by simp [hC]), if_neg (by simp [hK])]
      simp [hC, hK]

/-- Witness for C7: the characterization applied at the concrete string
`"37"`, whose stripped uppercase form ends in neither `C` nor `K`. -/
theorem temperature_grammar_witness : ∃ e, parseTemp ("37") = .error e :=
  (temperature_grammar.1 ("37")).mpr (Or.inl (by constructor <;> decide))

/-- Claim C8: applying equality, ordering or addition between a record and a
non-record (and, for addition, non-number) value makes the corresponding
method return `NotImplemented` (`none`), which is distinguishable from an
ordinary `False`/not-less-than result; the full `+` dispatch also fails for a
foreign operand on either side. -/
theorem foreign_operand_signal :
    ∀ (g : GibbsIT) (x : ℚ) (s : String),
      g.eqMeth (.number x) = none ∧ g.eqMeth (.foreign s) = none ∧
      g.ltMeth (.number x) = none ∧ g.ltMeth (.foreign s) = none ∧
      g.addMeth (.foreign s) = none ∧ g.raddMeth (.foreign s) = none ∧
      pyAddOp (.record g) (.foreign s) = none ∧
      pyAddOp (.foreign s) (.record g) = none ∧
      g.eqMeth (.foreign s) ≠ some False ∧ g.ltMeth (.foreign s) ≠ some False :=
  fun g x s => ⟨rfl, rfl, rfl, rfl, rfl, rfl, rfl, rfl,
    fun h => Option.noConfusion h, fun h => Option.noConfusion h⟩

/-- Witness for C8: the signalling equations at a concrete record, number and
foreign value. -/
theorem foreign_operand_signal_witness :
    unitRecord.eqMeth (.number 5) = none ∧ unitRecord.eqMeth (.foreign ("spam")) = none ∧
    unitRecord.ltMeth (.number 5) = none ∧ unitRecord.ltMeth (.foreign ("spam")) = none ∧
    unitRecord.addMeth (.foreign ("spam")) = none ∧
    unitRecord.raddMeth (.foreign ("spam")) = none ∧
    pyAddOp (.record unitRecord) (.foreign ("spam")) = none ∧
    pyAddOp (.foreign ("spam")) (.record unitRecord) = none ∧
    unitRecord.eqMeth (.foreign ("spam")) ≠ some False ∧
    unitRecord.ltMeth (.foreign ("spam")) ≠ some False :=
  foreign_operand_signal unitRecord 5 ("spam")

/-- Claim C9: a record renders as
`Gibbs Ion Transport (<name>: <ion>, ∆G = <value> kJ/mol)` with the energy at
two decimal places, and the scenario-2 record renders exactly as
`Gibbs Ion Transport (Na influx: Na+, ∆G = -12.60 kJ/mol)`. -/
theorem repr_format :
    (∀ g : GibbsIT, g.reprStr =
      "Gibbs Ion Transport (" ++ g.name ++ ": " ++ g.ion ++ ", ∆G = " ++
        fmt2 g.calculate_delta_G ++ " kJ/mol)") ∧
    (∃ g, GibbsIT.from_mM_mV ("Na influx") ("Na+") 145 15 1 (-70) (.str ("37C")) = .ok g ∧
      g.reprStr = "Gibbs Ion Transport (Na influx: Na+, ∆G = -12.60 kJ/mol)") :=
  ⟨fun g => rfl, ⟨naRecord, from_mM_mV_na, naRecord_repr⟩⟩

/-- Claim C10: the `name` and `ion` fields never influence any computed
result: records agreeing on the five numeric fields have identical energies,
and every equality, ordering and addition result is unchanged when `name` or
`ion` is varied on either operand. -/
theorem name_ion_noninterference :
    ∀ (name1 ion1 name2 ion2 : String) (c1 c2 : ℚ) (z : ℤ) (Vm T : ℚ)
      (v : PyVal) (h : GibbsIT),
      GibbsIT.calculate_delta_G ⟨name1, ion1, c1, c2, z, Vm, T⟩ =
        GibbsIT.calculate_delta_G ⟨name2, ion2, c1, c2, z, Vm, T⟩ ∧
      GibbsIT.eqMeth ⟨name1, ion1, c1, c2, z, Vm, T⟩ v =
        GibbsIT.eqMeth ⟨name2, ion2, c1, c2, z, Vm, T⟩ v ∧
      GibbsIT.ltMeth ⟨name1, ion1, c1, c2, z, Vm, T⟩ v =
        GibbsIT.ltMeth ⟨name2, ion2, c1, c2, z, Vm, T⟩ v ∧
      GibbsIT.addMeth ⟨name1, ion1, c1, c2, z, Vm, T⟩ v =
        GibbsIT.addMeth ⟨name2, ion2, c1, c2, z, Vm, T⟩ v ∧
      GibbsIT.raddMeth ⟨name1, ion1, c1, c2, z, Vm, T⟩ v =
        GibbsIT.raddMeth ⟨name2, ion2, c1, c2, z, Vm, T⟩ v ∧
      h.eqMeth (.record ⟨name1, ion1, c1, c2, z, Vm, T⟩) =
        h.eqMeth (.record ⟨name2, ion2, c1, c2, z, Vm, T⟩) ∧
      h.ltMeth (.record ⟨name1, ion1, c1, c2, z, Vm, T⟩) =
        h.ltMeth (.record ⟨name2, ion2, c1, c2, z, Vm, T⟩) ∧
      h.addMeth (.record ⟨name1, ion1, c1, c2, z, Vm, T⟩) =
        h.addMeth (.record ⟨name2, ion2, c1, c2, z, Vm, T⟩) := by
  intro name1 ion1 name2 ion2 c1 c2 z Vm T v h
  refine ⟨rfl, ?_, ?_, ?_, ?_, rfl, rfl, rfl⟩ <;> cases v <;> rfl
